import Mathlib

/-
  Verification development for the shark-explorer blockchain indexer.

  The definitions below are shallow embeddings of the Python sources:
  - shark-indexer/src/shark_indexer/core/indexer.py   (IndexerService)
  - shark-indexer/src/shark_indexer/core/node.py      (NodeClient)
  - shark-indexer/src/shark_indexer/db/database.py    (bulk_insert_mappings)

  Machine integers are modelled as Int/Nat (the Python sources use
  unbounded ints).  Fallible code returns Option/Except.  Environment
  behaviour (node fetch outcomes, database transaction commit outcomes)
  is passed in as explicit oracle functions.
-/

/- ===================== JSON values (raw node payloads) ===================== -/

/-- A JSON value, as handled by the Python dict/list machinery.  Numbers are
modelled as Int (the fields the indexer reads are integers). -/
inductive JsonVal where
  | null
  | bool (b : Bool)
  | num (n : Int)
  | str (s : String)
  | arr (elems : List JsonVal)
  | obj (fields : List (String × JsonVal))

/-- First-match key lookup in an association list, mirroring Python dict
indexing (dict keys are unique, so first-match agrees with dict lookup). -/
def lookupKey : List (String × JsonVal) → String → Option JsonVal
  | [], _ => none
  | (k', v') :: rest, k => if k' = k then some v' else lookupKey rest k

/-- Python data[k] / (k in data) on a JSON value: only objects have keys. -/
def jsonGet : JsonVal → String → Option JsonVal
  | .obj kvs, k => lookupKey kvs k
  | _, _ => none

/-- Replace the value of key k (keeping its position) or append the pair,
mirroring Python dict assignment data[k] = v. -/
def setKeyList : List (String × JsonVal) → String → JsonVal → List (String × JsonVal)
  | [], k, v => [(k, v)]
  | (k', v') :: rest, k, v =>
      if k' = k then (k, v) :: rest else (k', v') :: setKeyList rest k v

/-- Python dict assignment data[k] = v on a JSON value (no-op on non-objects;
the validator only reaches the assignment on objects). -/
def jsonSet : JsonVal → String → JsonVal → JsonVal
  | .obj kvs, k, v => .obj (setKeyList kvs k v)
  | j, _, _ => j

/-- Embeds IndexerService._validate_block_data (indexer.py lines 187-201).
Checks the required top-level fields (header, blockTransactions, height) and
the required header fields (id, timestamp, parentId, difficulty, version),
raising ValueError when one is missing, and then MUTATES the input payload:
block_data[id] = header[id].  The returned value is the post-call state of
the input dictionary.  Error messages are collapsed to one per level. -/
def validateBlockData (blockData : JsonVal) : Except String JsonVal :=
  match jsonGet blockData "header", jsonGet blockData "blockTransactions",
        jsonGet blockData "height" with
  | some header, some _, some _ =>
    match jsonGet header "id", jsonGet header "timestamp", jsonGet header "parentId",
          jsonGet header "difficulty", jsonGet header "version" with
    | some headerId, some _, some _, some _, some _ =>
        .ok (jsonSet blockData "id" headerId)
    | _, _, _, _, _ => .error "Missing required field in block header"
  | _, _, _ => .error "Missing required field in block data"

/- ===================== Raw transactions and row mappings ===================== -/

/-- A raw transaction input as read by the bulk transaction processor:
input.get(boxId) and input.get(value, 0). -/
structure RawInput where
  boxId : Option String
  value : Option Int
  deriving Repr, DecidableEq

/-- A raw asset entry of an output: asset.get(tokenId), asset.get(amount, 0). -/
structure RawAsset where
  tokenId : Option String
  amount : Int
  deriving Repr, DecidableEq

/-- A raw transaction output: output.get(boxId), output.get(value, 0),
output.get(address), output.get(assets, []). -/
structure RawOutput where
  boxId : Option String
  value : Option Int
  address : Option String
  assets : List RawAsset
  deriving Repr, DecidableEq

/-- A raw transaction.  The fields id, inputs, outputs are exactly the ones
required by _validate_transaction_data, so a RawTx always passes it. -/
structure RawTx where
  id : String
  inputs : List RawInput
  outputs : List RawOutput
  size : Int
  deriving Repr, DecidableEq

/-- inputs_sum of _process_transactions_bulk (indexer.py line 824):
sum(input.get(value, 0) for input in tx_data.get(inputs, [])).
The value comes from the raw payload; a missing value counts as 0. -/
def rawInputsSum (tx : RawTx) : Int :=
  (tx.inputs.map (fun i => i.value.getD 0)).sum

/-- outputs_sum of _process_transactions_bulk (indexer.py line 825). -/
def rawOutputsSum (tx : RawTx) : Int :=
  (tx.outputs.map (fun o => o.value.getD 0)).sum

/-- The fee stored in the transaction mapping by _process_transactions_bulk
(indexer.py lines 821-838): fee = 0 for the coinbase; otherwise
fee = inputs_sum - outputs_sum, stored as (fee if fee > 0 else 0). -/
def txStoredFee (isCoinbase : Bool) (tx : RawTx) : Int :=
  let fee : Int := if isCoinbase then 0 else rawInputsSum tx - rawOutputsSum tx
  if fee > 0 then fee else 0

/-- A Transaction row mapping as built by _process_transactions_bulk. -/
structure TxRow where
  id : String
  blockId : String
  inclusionHeight : Nat
  timestamp : Int
  index : Nat
  size : Int
  fee : Int
  deriving Repr, DecidableEq

/-- An Input row mapping. -/
structure InputRow where
  boxId : String
  txId : String
  indexInTx : Nat
  deriving Repr, DecidableEq

/-- An Output row mapping.  spent_by_tx_id is nullable. -/
structure OutputRow where
  boxId : String
  txId : String
  indexInTx : Nat
  value : Int
  address : Option String
  spentByTxId : Option String
  deriving Repr, DecidableEq

/-- An Asset row mapping. -/
structure AssetRow where
  boxId : String
  indexInOutputs : Nat
  tokenId : String
  amount : Int
  deriving Repr, DecidableEq

/-- Input mappings of one transaction (indexer.py lines 844-857): enumerate
the inputs, skip entries without a boxId (the index still advances). -/
def inputMappingsOf (txId : String) : List RawInput → Nat → List InputRow
  | [], _ => []
  | i :: rest, idx =>
    match i.boxId with
    | none => inputMappingsOf txId rest (idx + 1)
    | some b => ⟨b, txId, idx⟩ :: inputMappingsOf txId rest (idx + 1)

/-- Output mappings of one transaction (indexer.py lines 860-883): enumerate
the outputs, skip entries without a boxId; spent_by_tx_id is set to None
(source comment: will be updated when spent). -/
def outputMappingsOf (txId : String) : List RawOutput → Nat → List OutputRow
  | [], _ => []
  | o :: rest, idx =>
    match o.boxId with
    | none => outputMappingsOf txId rest (idx + 1)
    | some b => ⟨b, txId, idx, o.value.getD 0, o.address, none⟩ ::
        outputMappingsOf txId rest (idx + 1)

/-- Asset mappings of one output (indexer.py lines 886-902): enumerate the
assets, skip entries without a tokenId. -/
def assetMappingsOf (boxId : String) : List RawAsset → Nat → List AssetRow
  | [], _ => []
  | a :: rest, idx =>
    match a.tokenId with
    | none => assetMappingsOf boxId rest (idx + 1)
    | some t => ⟨boxId, idx, t, a.amount⟩ :: assetMappingsOf boxId rest (idx + 1)

/-- Asset mappings of one transaction: the asset loop runs inside the output
loop, after the boxId check, so outputs without a boxId contribute none. -/
def assetMappingsOfTx (outs : List RawOutput) : List AssetRow :=
  (outs.filterMap (fun o => o.boxId.map (fun b => assetMappingsOf b o.assets 0))).flatten

/-- The row mappings accumulated by _process_transactions_bulk before the
bulk inserts. -/
structure TxMappings where
  txs : List TxRow
  inputs : List InputRow
  outputs : List OutputRow
  assets : List AssetRow
  deriving Repr, DecidableEq

/-- The per-transaction loop of _process_transactions_bulk (indexer.py lines
812-905).  The mutable is_coinbase flag starts True and is set to False at
the end of every iteration, so it is True exactly at index 0.  Inputs are
skipped for the coinbase.  No database read is performed: the fee uses only
the raw payload. -/
def buildTxMappings (blockId : String) (height : Nat) (timestamp : Int) :
    List RawTx → Nat → TxMappings
  | [], _ => ⟨[], [], [], []⟩
  | tx :: rest, idx =>
    let isCoinbase := idx == 0
    let txRow : TxRow :=
      ⟨tx.id, blockId, height, timestamp, idx, tx.size, txStoredFee isCoinbase tx⟩
    let ins := if isCoinbase then [] else inputMappingsOf tx.id tx.inputs 0
    let outs := outputMappingsOf tx.id tx.outputs 0
    let assets := assetMappingsOfTx tx.outputs
    let restM := buildTxMappings blockId height timestamp rest (idx + 1)
    ⟨txRow :: restM.txs, ins ++ restM.inputs, outs ++ restM.outputs,
      assets ++ restM.assets⟩

/-- The relational rows owned by one chain (transactions, inputs, outputs,
assets), as far as the bulk path touches them. -/
structure RowDB where
  txRows : List TxRow
  inputRows : List InputRow
  outputRows : List OutputRow
  assetRows : List AssetRow
  deriving Repr, DecidableEq

/-- The database effect of _process_transactions_bulk (indexer.py lines
796-955): build the mappings, then bulk-insert each entity list (appends).
Existing rows are never updated; in particular no existing Output row has
its spent_by_tx_id changed, and _update_spent_outputs is never invoked on
this path. -/
def processTransactionsBulk (db : RowDB) (blockId : String) (height : Nat)
    (timestamp : Int) (txs : List RawTx) : RowDB :=
  let m := buildTxMappings blockId height timestamp txs 0
  { txRows := db.txRows ++ m.txs
    inputRows := db.inputRows ++ m.inputs
    outputRows := db.outputRows ++ m.outputs
    assetRows := db.assetRows ++ m.assets }

/-- The fee the specification prescribes (spec.md section 4.4): input values
MUST be looked up in the already-committed Output rows by box_id; a fee of 0
is recorded if any input value is unknown; the coinbase always has fee 0.
This definition follows the words of the spec and is compared against the
embedding of the source (txStoredFee / buildTxMappings). -/
def specFee (lookupValue : String → Option Int) (isCoinbase : Bool) (tx : RawTx) : Int :=
  if isCoinbase then 0
  else
    let vals := tx.inputs.map (fun i => i.boxId.bind lookupValue)
    if vals.any (fun v => v.isNone) then 0
    else max 0 ((vals.map (fun v => v.getD 0)).sum - rawOutputsSum tx)

/-- Value lookup in committed Output rows by box id (first match). -/
def outputValueLookup (rows : List OutputRow) (boxId : String) : Option Int :=
  (rows.find? (fun o => o.boxId == boxId)).map (fun o => o.value)

/- ===================== Address statistics (C10) ===================== -/

/-- An AddressStats row (address is the key of the association list). -/
structure AddressStatsRow where
  firstActiveTime : Int
  lastActiveTime : Option Int
  addressType : String
  scriptComplexity : Int
  deriving Repr, DecidableEq

/-- First-match lookup by address (address is a primary key, so first-match
agrees with the unique-row query scalar_one_or_none). -/
def lookupStats : List (String × AddressStatsRow) → String → Option AddressStatsRow
  | [], _ => none
  | (a', r) :: rest, a => if a' = a then some r else lookupStats rest a

/-- The update applied to an existing row (indexer.py lines 969-972): set
last_active_time when it is NULL or when the new timestamp is strictly
greater; first_active_time, address_type, script_complexity are untouched. -/
def bumpLastActive (ts : Int) (r : AddressStatsRow) : AddressStatsRow :=
  match r.lastActiveTime with
  | none => { r with lastActiveTime := some ts }
  | some l => if ts > l then { r with lastActiveTime := some ts } else r

/-- Apply bumpLastActive to the (first) row of the given address. -/
def updateStats (ts : Int) : List (String × AddressStatsRow) → String →
    List (String × AddressStatsRow)
  | [], _ => []
  | (a', r) :: rest, a =>
      if a' = a then (a', bumpLastActive ts r) :: rest
      else (a', r) :: updateStats ts rest a

/-- The loop of _process_address_stats_bulk (indexer.py lines 962-986): for
each address, query the existing row; update it in place when present;
otherwise stage a new mapping with first = last = the block timestamp,
address_type from _determine_address_type and script_complexity 0.  The
staged mappings are not visible to the queries of later iterations.
The classifier _determine_address_type is passed in as det (its body is a
pure function of the address and does not affect these rows otherwise). -/
def statsLoop (det : String → String) (ts : Int) :
    List String → List (String × AddressStatsRow) →
    List (String × AddressStatsRow) →
    List (String × AddressStatsRow) × List (String × AddressStatsRow)
  | [], db, newMaps => (db, newMaps)
  | a :: rest, db, newMaps =>
    match lookupStats db a with
    | some _ => statsLoop det ts rest (updateStats ts db a) newMaps
    | none => statsLoop det ts rest db (newMaps ++ [(a, ⟨ts, some ts, det a, 0⟩)])

/-- _process_address_stats_bulk (indexer.py lines 957-991): run the loop on
the observed addresses, then bulk-insert the staged new rows. -/
def processAddressStatsBulk (det : String → String)
    (db : List (String × AddressStatsRow)) (addrs : List String) (ts : Int) :
    List (String × AddressStatsRow) :=
  let p := statsLoop det ts addrs db []
  p.1 ++ p.2

/-- The row invariant claimed for AddressStats: every row has a non-null
last_active_time and first_active_time is at most last_active_time. -/
def StatsInv (db : List (String × AddressStatsRow)) : Prop :=
  ∀ a r, lookupStats db a = some r →
    ∃ l, r.lastActiveTime = some l ∧ r.firstActiveTime ≤ l

/- ===================== Bulk insert with fallback (C3) ===================== -/

/-- A row of the micro-model used to exercise constraint violations: key is
covered by a uniqueness constraint, parent by a foreign-key constraint. -/
structure MRow where
  key : Nat
  parent : Nat
  deriving Repr, DecidableEq

/-- Database error kinds distinguished by bulk_insert_mappings, which
branches on whether the error message names a foreign-key violation. -/
inductive DbErr where
  | fkViolation
  | uniqueViolation
  | otherError
  deriving Repr, DecidableEq

/-- A table with a uniqueness constraint on key and a foreign-key constraint
requiring parent to be a known parent key. -/
structure MTable where
  rows : List MRow
  parents : List Nat
  deriving Repr, DecidableEq

/-- Inserting one row: the foreign-key constraint is checked, then the
uniqueness constraint (the order is a fixed modelling choice). -/
def insertRow (t : MTable) (r : MRow) : Except DbErr MTable :=
  if r.parent ∈ t.parents then
    if (t.rows.map (fun x => x.key)).contains r.key then .error .uniqueViolation
    else .ok { t with rows := t.rows ++ [r] }
  else .error .fkViolation

/-- One bulk INSERT statement over a chunk: rows are checked in order and the
first violation aborts the whole statement (nothing of the chunk lands). -/
def bulkTryInsert (t : MTable) : List MRow → Except DbErr MTable
  | [] => .ok t
  | r :: rest =>
    match insertRow t r with
    | .ok t' => bulkTryInsert t' rest
    | .error e => .error e

/-- The per-row fallback of bulk_insert_mappings (database.py lines 150-159):
each row is added and flushed in turn; any failure is re-raised immediately,
so the first failing row aborts the remainder (no row is skipped). -/
def perRowFallback (t : MTable) : List MRow → Except DbErr MTable
  | [] => .ok t
  | r :: rest =>
    match insertRow t r with
    | .ok t' => perRowFallback t' rest
    | .error e => .error e

/-- The chunk loop of bulk_insert_mappings (database.py lines 140-162):
chunks of 500 rows; a chunk whose bulk insert fails with a FOREIGN-KEY
violation falls back to per-row inserts; any other error (in particular a
uniqueness violation) is re-raised with no fallback.  The fuel argument only
serves Lean structural recursion; the loop consumes at least one row per
round, so a fuel equal to the number of rows is never exhausted. -/
def bulkInsertLoopFuel : Nat → MTable → List MRow → Except DbErr MTable
  | _, t, [] => .ok t
  | 0, t, _ :: _ => .ok t
  | fuel + 1, t, m :: ms =>
    let batch := (m :: ms).take 500
    let rest := (m :: ms).drop 500
    match bulkTryInsert t batch with
    | .ok t' => bulkInsertLoopFuel fuel t' rest
    | .error e =>
      if e = .fkViolation then
        match perRowFallback t batch with
        | .ok t' => bulkInsertLoopFuel fuel t' rest
        | .error e' => .error e'
      else .error e

/-- bulk_insert_mappings (database.py lines 126-181).  supportsBulk mirrors
the hasattr(session, bulk_insert_mappings) probe; when it is false, every
row is added and a single flush surfaces the first violation. -/
def bulkInsertMappings (supportsBulk : Bool) (t : MTable) (mappings : List MRow) :
    Except DbErr MTable :=
  if mappings = [] then .ok t
  else if supportsBulk then bulkInsertLoopFuel mappings.length t mappings
  else perRowFallback t mappings

/- ===================== Ingestion pipeline (C1, C5, C6, C7, C8) ===================== -/

/-- A block payload at pipeline granularity: its height (attached by
get_block_by_height) and its block id. -/
structure PBlock where
  height : Nat
  id : String
  deriving Repr, DecidableEq

/-- The durable store as the pipeline sees it: committed Block rows, the
SyncStatus cursor and target, and the trace of every write performed on
SyncStatus.current_height (in order). -/
structure SyncDB where
  blocks : List PBlock
  currentHeight : Nat
  targetHeight : Nat
  cursorWrites : List Nat
  deriving Repr, DecidableEq

/-- The node as an environment: its full height, and the outcome of fetching
the block at each height.  blockAt h = none models a fetch that still fails
after the retry policy of NodeClient is exhausted. -/
structure NodeView where
  fullHeight : Nat
  blockAt : Nat → Option PBlock

/-- The heights of the committed Block rows. -/
def blockHeights (db : SyncDB) : List Nat := db.blocks.map (fun b => b.height)

/-- _process_height (indexer.py lines 664-722): fetch the block, validate,
insert its rows, set SyncStatus.current_height to this very height, commit;
any failure rolls the session back and re-raises (modelled as none, leaving
the store unchanged).  The cursor write is unconditional on success: it does
not compare the new height against the stored cursor. -/
def processHeight (node : NodeView) (db : SyncDB) (h : Nat) : Option SyncDB :=
  match node.blockAt h with
  | none => none
  | some b =>
      some { db with
        blocks := db.blocks ++ [b]
        currentHeight := h
        cursorWrites := db.cursorWrites ++ [h] }

/-- NodeClient.get_blocks_in_range (node.py lines 238-301): fetch every
height of the range concurrently, retry each a bounded number of times,
DROP the heights that still fail (they are only logged and counted), and
return the surviving blocks sorted ascending by height. -/
def getBlocksInRange (node : NodeView) (startH endH : Nat) : List PBlock :=
  (List.range' startH (endH + 1 - startH)).filterMap node.blockAt

/-- Stable-enough insertion for the sort-by-height the producer applies. -/
def insertByHeight (b : PBlock) : List PBlock → List PBlock
  | [] => [b]
  | c :: rest =>
      if b.height ≤ c.height then b :: c :: rest else c :: insertByHeight b rest

/-- blocks.sort(key=height) as used by the producer and the batch processor. -/
def sortByHeight : List PBlock → List PBlock
  | [] => []
  | b :: rest => insertByHeight b (sortByHeight rest)

/-- _block_producer (indexer.py lines 285-378): repeatedly fetch a micro
batch of at most min(fetch_batch_size, 20) heights, sort it by height, and
enqueue the blocks in order.  The queue contents are the concatenation of
the sorted micro batches.  The fuel argument only serves Lean termination;
it is instantiated with the width of the range, which the loop never
exceeds when the micro-batch size is positive. -/
def producerQueue (node : NodeView) (endH adjusted : Nat) : Nat → Nat → List PBlock
  | _, 0 => []
  | cur, fuel + 1 =>
    if cur > endH then []
    else
      let remaining := endH - cur + 1
      let cbs := min adjusted remaining
      sortByHeight (getBlocksInRange node cur (cur + cbs - 1)) ++
        producerQueue node endH adjusted (cur + cbs) fuel

/-- The local state of one consumer task (_block_consumer): its mini batch,
the set of heights it has committed in this run, and the consecutive batch
failure counter. -/
structure ConsumerState where
  batch : List PBlock
  processed : List Nat
  consecFailures : Nat
  deriving Repr, DecidableEq

/-- Heights of a mini batch. -/
def batchHeights (batch : List PBlock) : List Nat := batch.map (fun b => b.height)

/-- Fuel-driven slicing loop: each round takes a slice of n blocks and
recurses on the rest.  The fuel only serves Lean structural recursion; a
fuel equal to the list length is never exhausted when n is positive. -/
def chunkListFuel (n : Nat) : Nat → List PBlock → List (List PBlock)
  | _, [] => []
  | 0, _ :: _ => []
  | fuel + 1, l => (l.take n) :: chunkListFuel n fuel (l.drop n)

/-- The sub-batch chunking of _process_blocks_batch (indexer.py lines
529-532): blocks[i : i + subSize] for i in steps of subSize (subSize is
always positive there). -/
def chunkList (n : Nat) (l : List PBlock) : List (List PBlock) :=
  if n = 0 then [] else chunkListFuel n l.length l

/-- The sub-batch loop of _process_blocks_batch: each sub batch is processed
inside one multi_block_transaction whose commit outcome is decided by the
commitOk oracle.  A failed commit rolls the sub batch back and re-raises
(the Bool result is false), leaving earlier sub batches committed.  Block
validation and row processing inside a sub batch are taken to succeed; only
the transaction commit is subject to the environment. -/
def pbbLoop (commitOk : List Nat → Bool) (db : SyncDB) :
    List (List PBlock) → SyncDB × Bool
  | [] => (db, true)
  | sub :: rest =>
    if commitOk (batchHeights sub) then
      pbbLoop commitOk { db with blocks := db.blocks ++ sub } rest
    else (db, false)

/-- _process_blocks_batch (indexer.py lines 513-616): sort the mini batch by
height, split it into sub batches of min(5, max(1, n / 2)) blocks, commit
each sub batch in its own transaction; the first failing commit aborts the
call with an exception (second component false). -/
def processBlocksBatch (commitOk : List Nat → Bool) (db : SyncDB)
    (blocks : List PBlock) : SyncDB × Bool :=
  if blocks = [] then (db, true)
  else
    let sorted := sortByHeight blocks
    let subSize := min 5 (max 1 (blocks.length / 2))
    pbbLoop commitOk db (chunkList subSize sorted)

/-- The fallback of the consumer after max_consecutive_failures: process
each block of the failed mini batch individually via _process_height;
blocks that fail are only logged (indexer.py lines 481-493). -/
def individualFold (node : NodeView) :
    SyncDB → List PBlock → List Nat → SyncDB × List Nat
  | db, [], proc => (db, proc)
  | db, b :: rest, proc =>
    match processHeight node db b.height with
    | some db' => individualFold node db' rest (proc ++ [b.height])
    | none => individualFold node db rest proc

/-- The flush of a full mini batch (indexer.py lines 457-499): on success
record the heights and reset the failure counter; on failure increment the
counter, and only when it reaches 3 process the blocks of THIS batch
individually and reset the counter; the batch is discarded in every case. -/
def consumerFlush (node : NodeView) (commitOk : List Nat → Bool)
    (db : SyncDB) (cs : ConsumerState) : SyncDB × ConsumerState :=
  if (processBlocksBatch commitOk db cs.batch).2 then
    ((processBlocksBatch commitOk db cs.batch).1,
     { batch := [], processed := cs.processed ++ batchHeights cs.batch,
       consecFailures := 0 })
  else
    if cs.consecFailures + 1 ≥ 3 then
      ((individualFold node (processBlocksBatch commitOk db cs.batch).1 cs.batch cs.processed).1,
       { batch := [],
         processed :=
           (individualFold node (processBlocksBatch commitOk db cs.batch).1 cs.batch cs.processed).2,
         consecFailures := 0 })
    else
      ((processBlocksBatch commitOk db cs.batch).1,
       { batch := [], processed := cs.processed, consecFailures := cs.consecFailures + 1 })

/-- The ordering guard of the consumer (indexer.py lines 428-430): admit a
block to the mini batch unless its height is above lastProcessed + 1 while
its parent height was neither committed by this consumer nor durable. -/
def soloGuard (lastProcessed : Nat) (processed : List Nat) (h : Nat) : Bool :=
  decide (h > lastProcessed + 1) &&
    (!(processed.contains (h - 1)) && decide (h - 1 > lastProcessed))

/-- One consumer draining the queue (indexer.py lines 390-511), run to
completion on a given queue content (the deterministic schedule in which a
single consumer performs all the work; timeouts never fire).  A guarded
block is committed alone via _process_height; if that raises, the control
reaches the outer except which discards the current batch.  An admitted
block joins the batch, which is flushed at batchMax blocks. -/
def consumerConsume (node : NodeView) (commitOk : List Nat → Bool)
    (lastProcessed batchMax : Nat) :
    SyncDB → ConsumerState → List PBlock → SyncDB × ConsumerState
  | db, cs, [] => (db, cs)
  | db, cs, b :: rest =>
    if soloGuard lastProcessed cs.processed b.height then
      match processHeight node db b.height with
      | some db' =>
          consumerConsume node commitOk lastProcessed batchMax db'
            { cs with processed := cs.processed ++ [b.height], consecFailures := 0 }
            rest
      | none =>
          consumerConsume node commitOk lastProcessed batchMax db
            { cs with batch := [] } rest
    else
      let cs' := { cs with batch := cs.batch ++ [b] }
      if cs'.batch.length ≥ batchMax then
        let p := consumerFlush node commitOk db cs'
        consumerConsume node commitOk lastProcessed batchMax p.1 p.2 rest
      else
        consumerConsume node commitOk lastProcessed batchMax db cs' rest

/-- The sentinel handling (indexer.py lines 413-420): any remaining batch is
processed once; a failure there reaches the outer except, which discards the
batch (no counter logic, no individual fallback). -/
def consumerFinish (commitOk : List Nat → Bool) (db : SyncDB)
    (cs : ConsumerState) : SyncDB :=
  if cs.batch = [] then db
  else (processBlocksBatch commitOk db cs.batch).1

/-- A full run of one consumer over the queue contents. -/
def runConsumer (node : NodeView) (commitOk : List Nat → Bool)
    (lastProcessed batchMax : Nat) (db : SyncDB) (queue : List PBlock) : SyncDB :=
  let p := consumerConsume node commitOk lastProcessed batchMax db ⟨[], [], 0⟩ queue
  consumerFinish commitOk p.1 p.2

/-- The configuration knobs read by the pipeline. -/
structure PipelineConfig where
  batchSize : Nat
  sequentialSteps : Nat
  fetchBatchSize : Nat
  dbBatchSize : Nat
  deriving Repr, DecidableEq

/-- The default configuration (indexer.py lines 29-35, 218, 289, 393). -/
def defaultConfig : PipelineConfig :=
  { batchSize := 20, sequentialSteps := 20, fetchBatchSize := 20, dbBatchSize := 10 }

/-- The heights processed sequentially at the head of a window (indexer.py
lines 217-235): only when sequential_steps > 0 AND the window spans MORE
than one step (end_height - start_height > 1) are the heights start_height
through min(start_height + sequential_steps - 1, end_height) processed one
at a time before the producer/consumer pipeline starts. -/
def sequentialPrefixHeights (cfg : PipelineConfig) (startH endH : Nat) : List Nat :=
  if cfg.sequentialSteps > 0 ∧ endH - startH > 1 then
    List.range' startH (min (startH + cfg.sequentialSteps - 1) endH + 1 - startH)
  else []

/-- The prefix length the specification prescribes (spec.md section 4.5.4):
the first sequentialSteps blocks of every parallel window, i.e.
min(sequentialSteps, window length) blocks.  This definition follows the
words of the spec and is compared with sequentialPrefixHeights. -/
def specSequentialPrefixLength (cfg : PipelineConfig) (startH endH : Nat) : Nat :=
  min cfg.sequentialSteps (endH - startH + 1)

/-- Fold _process_height over the sequential prefix; the first failure
propagates out of _process_height_range (modelled as none). -/
def seqFold (node : NodeView) : SyncDB → List Nat → Option SyncDB
  | db, [] => some db
  | db, h :: rest =>
    match processHeight node db h with
    | some db' => seqFold node db' rest
    | none => none

/-- The pipelined tail of a window (indexer.py lines 248-283): the producer
fills the queue, one consumer drains it (the deterministic single-consumer
schedule), and afterwards SyncStatus.current_height is set to end_height
UNCONDITIONALLY, whatever the per-height outcomes were. -/
def tailPhase (node : NodeView) (commitOk : List Nat → Bool)
    (cfg : PipelineConfig) (db : SyncDB) (cur endH : Nat) : SyncDB :=
  let queue := producerQueue node endH (min cfg.fetchBatchSize 20) cur (endH + 1 - cur)
  let lastProcessed := db.currentHeight
  let db' := runConsumer node commitOk lastProcessed (min cfg.dbBatchSize 5) db queue
  { db' with currentHeight := endH, cursorWrites := db'.cursorWrites ++ [endH] }

/-- _process_height_range (indexer.py lines 210-283).  After an optional
sequential prefix (whose first failure propagates, modelled as none), the
remaining heights go through the producer/consumer pipeline; the function
ends by writing current_height = end_height.  When the prefix already covers
the window, current_height = end_height is written and the function
returns. -/
def processHeightRange (node : NodeView) (commitOk : List Nat → Bool)
    (cfg : PipelineConfig) (db : SyncDB) (startH endH : Nat) : Option SyncDB :=
  if startH > endH then some db
  else if cfg.sequentialSteps > 0 ∧ endH - startH > 1 then
    match seqFold node db
        (List.range' startH (min (startH + cfg.sequentialSteps - 1) endH + 1 - startH)) with
    | none => none
    | some db1 =>
      if min (startH + cfg.sequentialSteps - 1) endH + 1 > endH then
        some { db1 with currentHeight := endH, cursorWrites := db1.cursorWrites ++ [endH] }
      else
        some (tailPhase node commitOk cfg db1 (min (startH + cfg.sequentialSteps - 1) endH + 1) endH)
  else
    some (tailPhase node commitOk cfg db startH endH)

/-- One iteration of the control loop _run_indexer (indexer.py lines 80-141):
refresh target_height from the node, read the durable cursor, stop when
caught up, otherwise compute the dynamic batch size and process the next
window (parallel when parallel_mode and more than one block).  The loop body
contains NO comparison of stored block ids against the node and NO deletion
of stored blocks: reorganisations are not detected.  A none result models
the except branch of the loop (error logged, short sleep, state of already
committed rows not tracked here). -/
def runTick (node : NodeView) (commitOk : List Nat → Bool) (cfg : PipelineConfig)
    (parallelMode : Bool) (db : SyncDB) : Option SyncDB :=
  let db0 := { db with targetHeight := node.fullHeight }
  let current := db0.currentHeight
  let target := node.fullHeight
  if current ≥ target then some db0
  else
    let remaining := target - current
    let dynamicBatchSize :=
      min cfg.batchSize
        (max 10 (min remaining
          (if remaining > 1000 then cfg.batchSize * 2 else cfg.batchSize)))
    let blocksToProcess := min dynamicBatchSize remaining
    if parallelMode ∧ blocksToProcess > 1 then
      processHeightRange node commitOk cfg db0 (current + 1) (current + blocksToProcess)
    else
      processHeight node db0 (current + 1)

/- ===================== Two concurrent consumers (C6) ===================== -/

/-- The local state of one of two concurrent consumer tasks.  pending holds
a block for which the consumer has entered the solo path of the ordering
guard and is awaiting the database commit of its _process_height call (the
call suspends at the node fetch and the database round trips, so two solo
commits can land in either order). -/
structure MConsumer where
  batch : List PBlock
  processed : List Nat
  pending : Option PBlock
  deriving Repr, DecidableEq

/-- The shared state of the two consumers: the shared queue, both local
states and the durable store. -/
structure MState where
  queue : List PBlock
  c0 : MConsumer
  c1 : MConsumer
  db : SyncDB
  deriving Repr, DecidableEq

/-- A scheduler action: consumer i takes the next queue item, or the pending
solo commit of consumer i reaches the database. -/
inductive CAct where
  | popItem (i : Bool)
  | commitSolo (i : Bool)
  deriving Repr, DecidableEq

/-- Read the local state of consumer i. -/
def getConsumer (st : MState) (i : Bool) : MConsumer :=
  if i then st.c1 else st.c0

/-- Replace the local state of consumer i. -/
def setConsumer (st : MState) (i : Bool) (c : MConsumer) : MState :=
  if i then { st with c1 := c } else { st with c0 := c }

/-- Consumer i takes the head of the queue and runs the loop body of
_block_consumer on it: the ordering guard routes the block to the solo path
(pending commit) or into the local mini batch, which is flushed at 5 blocks
inside one batch transaction (commit taken successful here; a flush writes
no cursor).  Enabled only when the consumer is not awaiting a solo commit
and the queue is non-empty. -/
def mPop (lastProcessed : Nat) (st : MState) (i : Bool) : Option MState :=
  let c := getConsumer st i
  if c.pending.isSome then none
  else
    match st.queue with
    | [] => none
    | b :: rest =>
      if soloGuard lastProcessed c.processed b.height then
        some (setConsumer { st with queue := rest } i { c with pending := some b })
      else
        let c' := { c with batch := c.batch ++ [b] }
        if c'.batch.length ≥ 5 then
          let db' := { st.db with blocks := st.db.blocks ++ sortByHeight c'.batch }
          let c'' := { c' with
            batch := ([] : List PBlock)
            processed := c'.processed ++ batchHeights c'.batch }
          some (setConsumer { st with queue := rest, db := db' } i c'')
        else some (setConsumer { st with queue := rest } i c')

/-- The pending solo commit of consumer i reaches the database: exactly the
commit of _process_height (indexer.py lines 706-710), inserting the block
rows and writing SyncStatus.current_height := the height of this very block,
with no comparison against the stored cursor. -/
def mCommitSolo (st : MState) (i : Bool) : Option MState :=
  let c := getConsumer st i
  match c.pending with
  | none => none
  | some b =>
      some (setConsumer
        { st with db :=
          { st.db with
            blocks := st.db.blocks ++ [b]
            currentHeight := b.height
            cursorWrites := st.db.cursorWrites ++ [b.height] } }
        i { c with pending := none, processed := c.processed ++ [b.height] })

/-- One scheduled step of the two-consumer system. -/
def mStep (lastProcessed : Nat) (st : MState) : CAct → Option MState
  | .popItem i => mPop lastProcessed st i
  | .commitSolo i => mCommitSolo st i

/-- Run a schedule of steps; none when some step is not enabled. -/
def mRun (lastProcessed : Nat) : MState → List CAct → Option MState
  | st, [] => some st
  | st, a :: rest =>
    match mStep lastProcessed st a with
    | some st' => mRun lastProcessed st' rest
    | none => none

/-- A list is nondecreasing (the order the claim asserts for the sequence of
writes to SyncStatus.current_height). -/
def NonDecreasing (l : List Nat) : Prop := l.Chain' (· ≤ ·)

/- ===================== Concrete instances used by the theorems ===================== -/

/-- A node serving heights 1..26 whose fetch of height 25 keeps failing. -/
def nodeGap25 : NodeView :=
  { fullHeight := 26
    blockAt := fun h =>
      if h = 25 then none
      else if h ≤ 26 then some ⟨h, "b" ++ toString h⟩ else none }

/-- A node serving heights 1..10 with no failures. -/
def nodeTen : NodeView :=
  { fullHeight := 10
    blockAt := fun h => if h ≤ 10 then some ⟨h, "b" ++ toString h⟩ else none }

/-- A node at height 12 whose block ids all start with n. -/
def nodeFresh12 : NodeView :=
  { fullHeight := 12
    blockAt := fun h => if h ≤ 12 then some ⟨h, "n" ++ toString h⟩ else none }

/-- A node that fails every fetch. -/
def nodeDown : NodeView := { fullHeight := 0, blockAt := fun _ => none }

/-- The default configuration with the sequential prefix disabled
(sequential_steps = 0, a supported configuration value). -/
def cfgNoSeq : PipelineConfig :=
  { batchSize := 20, sequentialSteps := 0, fetchBatchSize := 20, dbBatchSize := 10 }

/-- An empty store whose durable cursor reads 20. -/
def dbAt20 : SyncDB :=
  { blocks := [], currentHeight := 20, targetHeight := 26, cursorWrites := [] }

/-- An empty store whose durable cursor reads 0. -/
def dbAt0 : SyncDB :=
  { blocks := [], currentHeight := 0, targetHeight := 10, cursorWrites := [] }

/-- A store holding blocks 1..10 with ids s1..s10 and cursor 10: the chain
suffix s8, s9, s10 disagrees with what nodeFresh12 serves at those heights. -/
def dbStale : SyncDB :=
  { blocks := (List.range' 1 10).map (fun h => ⟨h, "s" ++ toString h⟩)
    currentHeight := 10, targetHeight := 10, cursorWrites := [] }

/-- The commit oracle that fails every batch transaction containing height 1. -/
def commitNo1 : List Nat → Bool := fun hs => !(hs.contains 1)

/-- Initial state of the two-consumer system on the ascending queue
21, 22, 23 over a durable cursor of 20. -/
def mStart : MState :=
  { queue := [⟨21, "a21"⟩, ⟨22, "a22"⟩, ⟨23, "a23"⟩]
    c0 := ⟨[], [], none⟩
    c1 := ⟨[], [], none⟩
    db := { blocks := [], currentHeight := 20, targetHeight := 23, cursorWrites := [] } }

/-- The schedule: consumer 0 pops 21 (batched) and 23 (solo), consumer 1
pops 22 (solo); the commit of 23 lands before the commit of 22. -/
def raceSchedule : List CAct :=
  [.popItem false, .popItem true, .popItem false, .commitSolo false, .commitSolo true]

/-- A raw transaction spending box boxB without a value on its input (the
node block payload carries no input values), paying out 999000000. -/
def txSpender : RawTx :=
  { id := "tx2"
    inputs := [⟨some "boxB", none⟩]
    outputs := [⟨some "o1", some 700000000, some "A", []⟩,
                ⟨some "o2", some 299000000, some "B", []⟩]
    size := 300 }

/-- The coinbase transaction of the spending block. -/
def cbTx2 : RawTx :=
  { id := "cb2"
    inputs := [⟨none, none⟩]
    outputs := [⟨some "cbOut2", some 1000000, some "M", []⟩]
    size := 100 }

/-- The committed Output row of box boxB (created at height 1, unspent). -/
def committedOuts : List OutputRow :=
  [⟨"boxB", "cb1", 0, 1000000000, some "A", none⟩]

/-- The committed rows after block 1: its coinbase and the boxB output. -/
def dbRowsAfter1 : RowDB :=
  { txRows := [⟨"cb1", "blk1", 1, 1000, 0, 100, 0⟩]
    inputRows := []
    outputRows := committedOuts
    assetRows := [] }

/-- A table with one parent key 1 and no rows. -/
def tableP1 : MTable := { rows := [], parents := [1] }

/-- A raw block payload with a valid header and no top-level id key. -/
def rawBlockNoId : JsonVal :=
  .obj [("header", .obj [("id", .str "h1"), ("timestamp", .num 1),
          ("parentId", .str "p0"), ("difficulty", .num 5), ("version", .num 1)]),
        ("blockTransactions", .obj [("transactions", .arr [])]),
        ("height", .num 1)]

/-- The same payload after _validate_block_data ran on it: the top-level key
id was appended. -/
def rawBlockWithId : JsonVal :=
  .obj [("header", .obj [("id", .str "h1"), ("timestamp", .num 1),
          ("parentId", .str "p0"), ("difficulty", .num 5), ("version", .num 1)]),
        ("blockTransactions", .obj [("transactions", .arr [])]),
        ("height", .num 1),
        ("id", .str "h1")]

/-- The two-consumer state in which consumer 0 has a pending solo commit of
the block at height 9. -/
def mPending : MState :=
  { queue := [], c0 := ⟨[], [], some ⟨9, "p9"⟩⟩, c1 := ⟨[], [], none⟩
    db := { blocks := [], currentHeight := 5, targetHeight := 9, cursorWrites := [] } }

/-- A constant address classifier standing in for _determine_address_type. -/
def detP2pk : String → String := fun _ => "p2pk"

/-- An AddressStats table holding one row for address A. -/
def statsDbA : List (String × AddressStatsRow) := [("A", ⟨5, some 7, "p2pk", 0⟩)]

/- ===================== Theorems ===================== -/

/-- Helper: the non-coinbase stored fee is the clamped raw difference. -/
theorem txStoredFee_false_eq (tx : RawTx) :
    txStoredFee false tx = max 0 (rawInputsSum tx - rawOutputsSum tx) := by
  unfold txStoredFee
  by_cases h : rawInputsSum tx - rawOutputsSum tx > 0
  · simp only [Bool.false_eq_true, if_false]
    rw [if_pos h, max_eq_right h.le]
  · simp only [Bool.false_eq_true, if_false]
    rw [if_neg h, max_eq_left (by omega)]

/-- Helper: the coinbase stored fee is 0. -/
theorem txStoredFee_true_eq (tx : RawTx) : txStoredFee true tx = 0 := by
  simp [txStoredFee]

/-- Helper: the transaction mapping built for the i-th raw transaction. -/
theorem buildTxMappings_txs_getElem (blockId : String) (height : Nat) (ts : Int) :
    ∀ (txs : List RawTx) (k i : Nat),
      (buildTxMappings blockId height ts txs k).txs[i]? =
        (txs[i]?).map (fun tx =>
          ⟨tx.id, blockId, height, ts, k + i, tx.size, txStoredFee (k + i == 0) tx⟩) := by
  intro txs
  induction txs with
  | nil => intro k i; simp [buildTxMappings]
  | cons t rest ih =>
    intro k i
    cases i with
    | zero => simp [buildTxMappings]
    | succ j =>
      simp only [buildTxMappings, List.getElem?_cons_succ, ih]
      have : k + 1 + j = k + (j + 1) := by omega
      rw [this]

/-- Claim C1 (counterexample): in the window 21..26 with the fetch of height
25 failing after retry exhaustion (and the sequential prefix configured
off), the pipeline commits every other height, never commits height 25, and
still writes current_height = 26, refuting the claim that the write of
current_height = end happens only if every height in the window was
committed. -/
theorem c1_cursor_advances_past_failed_fetch :
    (processHeightRange nodeGap25 (fun _ => true) cfgNoSeq dbAt20 21 26).map
        (fun d => (d.currentHeight, d.cursorWrites, (blockHeights d).contains 25))
      = some (26, [22, 24, 26, 26], false) ∧
    nodeGap25.blockAt 25 = none := ⟨by decide, rfl⟩

/-- Claim C1 (amended): whenever _process_height_range returns normally on a
window with start at most end, the final value of SyncStatus.current_height
is end_height and the last cursor write is end_height, regardless of which
heights of the window were actually committed. -/
theorem c1_window_end_write_unconditional (node : NodeView)
    (commitOk : List Nat → Bool) (cfg : PipelineConfig) (db db' : SyncDB)
    (startH endH : Nat) (hle : startH ≤ endH)
    (hrun : processHeightRange node commitOk cfg db startH endH = some db') :
    db'.currentHeight = endH ∧ db'.cursorWrites.getLast? = some endH := by
  unfold processHeightRange at hrun
  rw [if_neg (by omega)] at hrun
  by_cases hseq : cfg.sequentialSteps > 0 ∧ endH - startH > 1
  · rw [if_pos hseq] at hrun
    cases hfold : seqFold node db
        (List.range' startH (min (startH + cfg.sequentialSteps - 1) endH + 1 - startH)) with
    | none => rw [hfold] at hrun; cases hrun
    | some db1 =>
      rw [hfold] at hrun
      dsimp only [] at hrun
      by_cases hcov : min (startH + cfg.sequentialSteps - 1) endH + 1 > endH
      · rw [if_pos hcov] at hrun
        cases hrun
        exact ⟨rfl, List.getLast?_concat _⟩
      · rw [if_neg hcov] at hrun
        cases hrun
        exact ⟨rfl, List.getLast?_concat _⟩
  · rw [if_neg hseq] at hrun
    cases hrun
    exact ⟨rfl, List.getLast?_concat _⟩

/-- Witness for c1_window_end_write_unconditional at a concrete window. -/
theorem c1_window_end_write_unconditional_witness :
    (1 : Nat) ≤ 1 ∧
    processHeightRange nodeDown (fun _ => true) cfgNoSeq ⟨[], 0, 0, []⟩ 1 1 =
      some ⟨[], 1, 0, [1]⟩ ∧
    (⟨[], 1, 0, [1]⟩ : SyncDB).currentHeight = 1 ∧
    ([1] : List Nat).getLast? = some 1 :=
  ⟨by decide, by rfl,
   (c1_window_end_write_unconditional nodeDown (fun _ => true) cfgNoSeq
      ⟨[], 0, 0, []⟩ ⟨[], 1, 0, [1]⟩ 1 1 (by decide) (by rfl)).1,
   (c1_window_end_write_unconditional nodeDown (fun _ => true) cfgNoSeq
      ⟨[], 0, 0, []⟩ ⟨[], 1, 0, [1]⟩ 1 1 (by decide) (by rfl)).2⟩

/-- Claim C2 (counterexample): for a transaction whose input carries no
value in the raw payload while the referenced box is a committed Output row
of value 1000000000 and the outputs sum to 999000000, the code stores fee 0
(raw values only, missing value read as 0), while the fee prescribed by the
specification (lookup in committed Output rows) is 1000000. -/
theorem c2_fee_ignores_output_lookup :
    ((buildTxMappings "blk2" 2 2000 [cbTx2, txSpender] 0).txs.map (fun r => r.fee))
      = [0, 0] ∧
    specFee (outputValueLookup committedOuts) false txSpender = 1000000 ∧
    txSpender.inputs.map (fun i => i.boxId) = [some "boxB"] ∧
    outputValueLookup committedOuts "boxB" = some 1000000000 := by
  refine ⟨by decide, by decide, by decide, by decide⟩

/-- Claim C2 (amended): the fee stored for the transaction at index i of a
block is 0 for the coinbase (index 0) and otherwise
max(0, sum of raw input values - sum of raw output values), where a missing
input value counts as 0; no lookup of committed Output rows is involved. -/
theorem c2_fee_from_raw_payload (blockId : String) (height : Nat) (ts : Int)
    (txs : List RawTx) (i : Nat) (tx : RawTx) (h : txs[i]? = some tx) :
    ((buildTxMappings blockId height ts txs 0).txs[i]?).map (fun r => r.fee) =
      some (if i = 0 then 0 else max 0 (rawInputsSum tx - rawOutputsSum tx)) := by
  rw [buildTxMappings_txs_getElem, h]
  cases i with
  | zero => simp [txStoredFee_true_eq]
  | succ j => simp [txStoredFee_false_eq]

/-- Witness for c2_fee_from_raw_payload on the concrete spending block. -/
theorem c2_fee_from_raw_payload_witness :
    ([cbTx2, txSpender][1]? = some txSpender) ∧
    ((buildTxMappings "blk2" 2 2000 [cbTx2, txSpender] 0).txs[1]?).map (fun r => r.fee) =
      some (if 1 = 0 then 0 else
        max 0 (rawInputsSum txSpender - rawOutputsSum txSpender)) :=
  ⟨rfl, c2_fee_from_raw_payload "blk2" 2 2000 [cbTx2, txSpender] 1 txSpender rfl⟩

/-- Claim C3 (counterexample): a batch with a duplicate key fails the bulk
insert with a uniqueness violation and the layer re-raises WITHOUT any
per-row fallback (the non-duplicate first row is not committed), and even
under a foreign-key violation the fallback re-raises at the first bad row,
discarding the good rows of the batch; both rows were individually
insertable, so the claimed behaviour (commit every non-violating row, skip
only the bad ones) does not hold. -/
theorem c3_unique_violation_no_fallback :
    bulkInsertMappings true tableP1 [⟨5, 1⟩, ⟨5, 1⟩] = .error .uniqueViolation ∧
    bulkInsertMappings true tableP1 [⟨2, 9⟩, ⟨3, 1⟩] = .error .fkViolation ∧
    insertRow tableP1 ⟨5, 1⟩ = .ok { rows := [⟨5, 1⟩], parents := [1] } ∧
    insertRow tableP1 ⟨3, 1⟩ = .ok { rows := [⟨3, 1⟩], parents := [1] } :=
  ⟨rfl, rfl, rfl, rfl⟩

/-- Claim C3 (amended): for a non-empty batch within one chunk, the layer
commits the batch when the bulk insert succeeds; it falls back to per-row
inserts (flush after each row, first failure re-raised, aborting the rest)
exactly when the bulk insert fails with a FOREIGN-KEY violation; any other
bulk error, in particular a uniqueness violation, is re-raised unchanged
with no fallback. -/
theorem c3_fallback_only_on_fk (t : MTable) (rows : List MRow)
    (hne : rows ≠ []) (hlen : rows.length ≤ 500) :
    (∀ t', bulkTryInsert t rows = .ok t' → bulkInsertMappings true t rows = .ok t') ∧
    (bulkTryInsert t rows = .error .fkViolation →
      bulkInsertMappings true t rows = perRowFallback t rows) ∧
    (∀ e, bulkTryInsert t rows = .error e → e ≠ .fkViolation →
      bulkInsertMappings true t rows = .error e) := by
  unfold bulkInsertMappings
  rw [if_neg hne]
  simp only [if_true]
  cases rows with
  | nil => exact absurd rfl hne
  | cons m ms =>
    have htake : (m :: ms).take 500 = m :: ms := List.take_of_length_le hlen
    have hdrop : (m :: ms).drop 500 = [] := List.drop_eq_nil_of_le hlen
    simp only [List.length_cons, bulkInsertLoopFuel, htake, hdrop]
    refine ⟨?_, ?_, ?_⟩
    · intro t' hok
      rw [hok]
    · intro hfk
      rw [hfk]
      simp only [if_pos rfl]
      cases hfb : perRowFallback t (m :: ms) with
      | ok t' => simp [hfb]
      | error e' => simp [hfb]
    · intro e herr hnefk
      rw [herr]
      simp only []
      rw [if_neg (by simpa using hnefk)]

/-- Witness for c3_fallback_only_on_fk on a one-row FK-violating batch. -/
theorem c3_fallback_only_on_fk_witness :
    ([(⟨2, 9⟩ : MRow)] ≠ []) ∧ ([(⟨2, 9⟩ : MRow)].length ≤ 500) ∧
    bulkTryInsert tableP1 [⟨2, 9⟩] = .error .fkViolation ∧
    bulkInsertMappings true tableP1 [⟨2, 9⟩] = perRowFallback tableP1 [⟨2, 9⟩] :=
  ⟨by decide, by decide, rfl,
   (c3_fallback_only_on_fk tableP1 [⟨2, 9⟩] (by decide) (by decide)).2.1 rfl⟩

/-- Claim C4 (code bug): committing, through the default bulk path, a block
whose transaction tx2 spends the committed box boxB records the Input row
for boxB but leaves the boxB Output row with spent_by_tx_id = NULL: the
second-pass update the specification requires (and the source comments
announce) is never performed on this path, so the spent box stays in the
UTXO set. -/
theorem c4_spent_by_never_set_in_bulk_path :
    (processTransactionsBulk dbRowsAfter1 "blk2" 2 2000 [cbTx2, txSpender]).inputRows
        = [⟨"boxB", "tx2", 0⟩] ∧
    ((processTransactionsBulk dbRowsAfter1 "blk2" 2 2000 [cbTx2, txSpender]).outputRows.find?
        (fun o => o.boxId == "boxB"))
        = some ⟨"boxB", "cb1", 0, 1000000000, some "A", none⟩ ∧
    ((processTransactionsBulk dbRowsAfter1 "blk2" 2 2000 [cbTx2, txSpender]).outputRows.all
        (fun o => o.spentByTxId == none)) = true := by
  refine ⟨by decide, by decide, by decide⟩

/-- Claim C5 (counterexample): on the window 1..10 where the mini-batch
transaction for the accumulated batch 1, 3, 5, 7, 9 fails once, the consumer
merely discards the batch (one consecutive failure, below the threshold of
3): none of those five heights is committed or retried within the window,
although individual processing of height 1 would have succeeded; the window
still ends with current_height = 10.  This refutes the claim that every
failed mini-batch is immediately iterated individually. -/
theorem c5_failed_batch_not_retried_immediately :
    (processHeightRange nodeTen commitNo1 cfgNoSeq dbAt0 1 10).map
        (fun d => (blockHeights d, d.currentHeight)) = some ([2, 4, 6, 8, 10], 10) ∧
    commitNo1 [1, 3] = false ∧
    (processHeight nodeTen dbAt0 1).isSome = true := by
  refine ⟨by decide, by decide, by decide⟩

/-- Claim C5 (amended): when the mini-batch transaction of a flush fails,
the consumer discards the batch and increments the failure counter; only
when the counter reaches 3 are the blocks of that batch processed
individually through the sequential path, after which the counter resets. -/
theorem c5_flush_failure_cascade (node : NodeView) (commitOk : List Nat → Bool)
    (db : SyncDB) (cs : ConsumerState)
    (hfail : (processBlocksBatch commitOk db cs.batch).2 = false) :
    (cs.consecFailures + 1 < 3 →
      consumerFlush node commitOk db cs =
        ((processBlocksBatch commitOk db cs.batch).1,
         ⟨[], cs.processed, cs.consecFailures + 1⟩)) ∧
    (cs.consecFailures + 1 ≥ 3 →
      consumerFlush node commitOk db cs =
        ((individualFold node (processBlocksBatch commitOk db cs.batch).1 cs.batch cs.processed).1,
         ⟨[], (individualFold node (processBlocksBatch commitOk db cs.batch).1 cs.batch cs.processed).2, 0⟩)) := by
  constructor
  · intro hlt
    unfold consumerFlush
    rw [hfail]
    simp only [Bool.false_eq_true, if_false]
    rw [if_neg (by omega)]
  · intro hge
    unfold consumerFlush
    rw [hfail]
    simp only [Bool.false_eq_true, if_false]
    rw [if_pos (by omega)]

/-- Witness for c5_flush_failure_cascade on a concrete failing flush. -/
theorem c5_flush_failure_cascade_witness :
    (processBlocksBatch (fun _ => false) dbAt0 [⟨1, "b1"⟩]).2 = false ∧
    consumerFlush nodeDown (fun _ => false) dbAt0 ⟨[⟨1, "b1"⟩], [], 0⟩ =
      ((processBlocksBatch (fun _ => false) dbAt0 [⟨1, "b1"⟩]).1, ⟨[], [], 0 + 1⟩) :=
  ⟨rfl, (c5_flush_failure_cascade nodeDown (fun _ => false) dbAt0
      ⟨[⟨1, "b1"⟩], [], 0⟩ rfl).1 (by decide)⟩

/-- Claim C6 (counterexample): starting from the durable cursor 20 and the
ascending queue 21, 22, 23, the legal interleaving raceSchedule (consumer 0
batches 21 and solo-processes 23, consumer 1 solo-processes 22, and the
commit of 23 reaches the database before the commit of 22) produces the
cursor write sequence 23 then 22: the durable current_height decreases from
23 to 22, refuting the claim that it never decreases. -/
theorem c6_cursor_writes_can_decrease :
    (mRun 20 mStart raceSchedule).map (fun s => s.db.cursorWrites) = some [23, 22] ∧
    ¬ NonDecreasing [23, 22] := by
  constructor
  · decide
  · simp [NonDecreasing]

/-- Claim C6 (amended): every solo commit writes current_height equal to the
height of its own block, unconditionally, appending that height to the write
trace: there is no monotonicity guard, so with concurrent workers the
durable cursor can decrease transiently before the final end-of-window
write. -/
theorem c6_solo_commit_writes_own_height (st : MState) (i : Bool) (b : PBlock)
    (st' : MState)
    (hp : (getConsumer st i).pending = some b)
    (hstep : mCommitSolo st i = some st') :
    st'.db.currentHeight = b.height ∧
    st'.db.cursorWrites = st.db.cursorWrites ++ [b.height] := by
  unfold mCommitSolo at hstep
  simp only [hp] at hstep
  cases hstep
  cases i <;> simp [setConsumer]

/-- Witness for c6_solo_commit_writes_own_height at a concrete pending
commit. -/
theorem c6_solo_commit_writes_own_height_witness :
    (getConsumer mPending false).pending = some ⟨9, "p9"⟩ ∧
    mCommitSolo mPending false =
      some ⟨[], ⟨[], [9], none⟩, ⟨[], [], none⟩, ⟨[⟨9, "p9"⟩], 9, 9, [9]⟩⟩ ∧
    (⟨[], ⟨[], [9], none⟩, ⟨[], [], none⟩,
        ⟨[⟨9, "p9"⟩], 9, 9, [9]⟩⟩ : MState).db.currentHeight = 9 ∧
    (⟨[], ⟨[], [9], none⟩, ⟨[], [], none⟩,
        ⟨[⟨9, "p9"⟩], 9, 9, [9]⟩⟩ : MState).db.cursorWrites =
      mPending.db.cursorWrites ++ [9] :=
  ⟨rfl, rfl,
   (c6_solo_commit_writes_own_height mPending false ⟨9, "p9"⟩ _ rfl rfl).1,
   (c6_solo_commit_writes_own_height mPending false ⟨9, "p9"⟩ _ rfl rfl).2⟩

/-- Claim C7 (code bug): with stored blocks 1..10 (ids s1..s10, cursor 10)
while the node is on a different chain (ids n1..n12, height 12), one control
loop tick leaves the stale rows s8, s9, s10 in place, deletes nothing,
resets nothing, and advances current_height forward to 12: the tick contains
no comparison of stored block ids against the node and no rollback, so the
reorganisation recovery described by the claim does not exist in the code. -/
theorem c7_tick_performs_no_reorg_rollback :
    (runTick nodeFresh12 (fun _ => true) defaultConfig true dbStale).map
        (fun d => (d.blocks.contains ⟨8, "s8"⟩, d.blocks.contains ⟨9, "s9"⟩,
                   d.blocks.contains ⟨10, "s10"⟩, d.blocks.contains ⟨8, "n8"⟩,
                   d.currentHeight))
      = some (true, true, true, false, 12) ∧
    (nodeFresh12.blockAt 8).map (fun b => b.id) = some "n8" ∧
    dbStale.blocks.contains ⟨8, "s8"⟩ = true := by
  refine ⟨by decide, by decide, by decide⟩

/-- Claim C8 (counterexample): for the two-block window 5..6 with the
default 20 sequential steps, the code processes NO block sequentially (the
guard requires end - start > 1), while the specification prescribes a
sequential prefix of min(20, 2) = 2 blocks; the prefix length differs from
the specified one. -/
theorem c8_two_block_window_skips_prefix :
    sequentialPrefixHeights defaultConfig 5 6 = [] ∧
    specSequentialPrefixLength defaultConfig 5 6 = 2 ∧
    defaultConfig.sequentialSteps > 0 := by
  refine ⟨by decide, by decide, by decide⟩

/-- Claim C8 (amended): for windows of at least three blocks
(end - start > 1) and a positive sequential_steps, the sequential prefix is
exactly the first min(sequential_steps, window length) heights of the
window, processed before the producer/consumer pipeline starts; two-block
windows skip the prefix entirely. -/
theorem c8_prefix_for_windows_of_three_or_more (cfg : PipelineConfig) (s e : Nat)
    (h1 : cfg.sequentialSteps > 0) (h2 : e - s > 1) :
    sequentialPrefixHeights cfg s e = List.range' s (min cfg.sequentialSteps (e - s + 1)) ∧
    (sequentialPrefixHeights cfg s e).length = min cfg.sequentialSteps (e - s + 1) := by
  have hc : min (s + cfg.sequentialSteps - 1) e + 1 - s = min cfg.sequentialSteps (e - s + 1) := by
    omega
  unfold sequentialPrefixHeights
  rw [if_pos ⟨h1, h2⟩, hc]
  exact ⟨rfl, by simp⟩

/-- Witness for c8_prefix_for_windows_of_three_or_more on the window 5..7. -/
theorem c8_prefix_for_windows_of_three_or_more_witness :
    defaultConfig.sequentialSteps > 0 ∧ (7 : Nat) - 5 > 1 ∧
    sequentialPrefixHeights defaultConfig 5 7 =
      List.range' 5 (min defaultConfig.sequentialSteps (7 - 5 + 1)) ∧
    (sequentialPrefixHeights defaultConfig 5 7).length =
      min defaultConfig.sequentialSteps (7 - 5 + 1) :=
  ⟨by decide, by decide,
   (c8_prefix_for_windows_of_three_or_more defaultConfig 5 7 (by decide) (by decide)).1,
   (c8_prefix_for_windows_of_three_or_more defaultConfig 5 7 (by decide) (by decide)).2⟩

/-- Claim C9 (counterexample): validating the well-formed raw block
rawBlockNoId, which has no top-level id key, returns the payload WITH a new
top-level key id (set to the header id): the validator mutates its input, so
validation is not side-effect free on the payload. -/
theorem c9_validate_mutates_payload :
    validateBlockData rawBlockNoId = Except.ok rawBlockWithId ∧
    jsonGet rawBlockNoId "id" = none ∧
    jsonGet rawBlockWithId "id" = some (.str "h1") ∧
    rawBlockWithId ≠ rawBlockNoId := by
  refine ⟨rfl, rfl, rfl, fun h => ?_⟩
  exact Option.noConfusion (congrArg (fun j => jsonGet j "id") h)

/-- Helper: looking up the key just set returns the new value. -/
theorem lookupKey_setKeyList_self (k : String) (v : JsonVal) :
    ∀ kvs, lookupKey (setKeyList kvs k v) k = some v := by
  intro kvs
  induction kvs with
  | nil => simp [setKeyList, lookupKey]
  | cons p rest ih =>
    obtain ⟨a, b⟩ := p
    by_cases hak : a = k
    · simp [setKeyList, hak, lookupKey]
    · simp [setKeyList, hak, lookupKey, ih]

/-- Helper: setting key k leaves every other key unchanged. -/
theorem lookupKey_setKeyList_ne (k k' : String) (v : JsonVal) (hne : k' ≠ k) :
    ∀ kvs, lookupKey (setKeyList kvs k v) k' = lookupKey kvs k' := by
  intro kvs
  induction kvs with
  | nil => simp [setKeyList, lookupKey, Ne.symm hne]
  | cons p rest ih =>
    obtain ⟨a, b⟩ := p
    by_cases hak : a = k
    · subst hak
      simp [setKeyList, lookupKey, Ne.symm hne]
    · simp [setKeyList, hak, lookupKey, ih]

/-- Claim C9 (amended): when validation succeeds, the only change the
validator makes to the payload is writing the top-level key id to the header
id (adding the key or overwriting it); every other key is untouched, and
malformed input is rejected. -/
theorem c9_validate_adds_only_id (b b' : JsonVal)
    (h : validateBlockData b = .ok b') :
    (∃ header headerId, jsonGet b "header" = some header ∧
        jsonGet header "id" = some headerId ∧ b' = jsonSet b "id" headerId ∧
        jsonGet b' "id" = some headerId) ∧
    (∀ k, k ≠ "id" → jsonGet b' k = jsonGet b k) := by
  unfold validateBlockData at h
  cases hh : jsonGet b "header" with
  | none => rw [hh] at h; cases h
  | some header =>
    rw [hh] at h
    cases hbt : jsonGet b "blockTransactions" with
    | none => rw [hbt] at h; cases h
    | some bt =>
      rw [hbt] at h
      cases hht : jsonGet b "height" with
      | none => rw [hht] at h; cases h
      | some hv =>
        rw [hht] at h
        dsimp only [] at h
        cases hid : jsonGet header "id" with
        | none => rw [hid] at h; cases h
        | some headerId =>
          rw [hid] at h
          cases hts : jsonGet header "timestamp" with
          | none => rw [hts] at h; cases h
          | some tsv =>
            rw [hts] at h
            cases hpi : jsonGet header "parentId" with
            | none => rw [hpi] at h; cases h
            | some piv =>
              rw [hpi] at h
              cases hdi : jsonGet header "difficulty" with
              | none => rw [hdi] at h; cases h
              | some div' =>
                rw [hdi] at h
                cases hvv : jsonGet header "version" with
                | none => rw [hvv] at h; cases h
                | some vv =>
                  rw [hvv] at h
                  dsimp only [] at h
                  cases h
                  cases b with
                  | obj kvs =>
                    refine ⟨⟨header, headerId, rfl, hid, rfl, ?_⟩, ?_⟩
                    · simpa [jsonSet, jsonGet] using
                        lookupKey_setKeyList_self "id" headerId kvs
                    · intro k hk
                      simpa [jsonSet, jsonGet] using
                        lookupKey_setKeyList_ne "id" k headerId hk kvs
                  | null => simp [jsonGet] at hh
                  | bool bb => simp [jsonGet] at hh
                  | num n => simp [jsonGet] at hh
                  | str s => simp [jsonGet] at hh
                  | arr xs => simp [jsonGet] at hh

/-- Witness for c9_validate_adds_only_id on the concrete payload: the
height key is untouched by validation. -/
theorem c9_validate_adds_only_id_witness :
    validateBlockData rawBlockNoId = Except.ok rawBlockWithId ∧
    jsonGet rawBlockWithId "height" = jsonGet rawBlockNoId "height" :=
  ⟨rfl, (c9_validate_adds_only_id rawBlockNoId rawBlockWithId rfl).2 "height" (by decide)⟩

/-- Helper: the update of an existing row keeps first_active_time. -/
theorem bumpLastActive_first (ts : Int) (r : AddressStatsRow) :
    (bumpLastActive ts r).firstActiveTime = r.firstActiveTime := by
  cases hr : r.lastActiveTime <;> simp [bumpLastActive, hr]
  split <;> rfl

/-- Helper: the update of an existing row keeps address_type. -/
theorem bumpLastActive_type (ts : Int) (r : AddressStatsRow) :
    (bumpLastActive ts r).addressType = r.addressType := by
  cases hr : r.lastActiveTime <;> simp [bumpLastActive, hr]
  split <;> rfl

/-- Helper: the update sets last_active_time to the max of old and new. -/
theorem bumpLastActive_last (ts l : Int) (r : AddressStatsRow)
    (hl : r.lastActiveTime = some l) :
    (bumpLastActive ts r).lastActiveTime = some (if ts > l then ts else l) := by
  simp only [bumpLastActive, hl]
  split
  · simp
  · simp [hl]

/-- Helper: updating twice with the same timestamp equals updating once. -/
theorem bumpLastActive_idem (ts : Int) (r : AddressStatsRow) :
    bumpLastActive ts (bumpLastActive ts r) = bumpLastActive ts r := by
  cases hr : r.lastActiveTime with
  | none => simp [bumpLastActive, hr]
  | some l =>
    by_cases h : ts > l
    · simp [bumpLastActive, hr, h]
    · simp [bumpLastActive, hr, h]

/-- Helper: lookup in a concatenation, key present on the left. -/
theorem lookupStats_append_left (db maps : List (String × AddressStatsRow))
    (a : String) (r : AddressStatsRow) (h : lookupStats db a = some r) :
    lookupStats (db ++ maps) a = some r := by
  induction db with
  | nil => simp [lookupStats] at h
  | cons p rest ih =>
    obtain ⟨a', r'⟩ := p
    by_cases ha : a' = a
    · simp_all [lookupStats]
    · simp_all [lookupStats]

/-- Helper: lookup in a concatenation, key absent on the left. -/
theorem lookupStats_append_right (db maps : List (String × AddressStatsRow))
    (a : String) (h : lookupStats db a = none) :
    lookupStats (db ++ maps) a = lookupStats maps a := by
  induction db with
  | nil => simp [lookupStats]
  | cons p rest ih =>
    obtain ⟨a', r'⟩ := p
    by_cases ha : a' = a
    · simp_all [lookupStats]
    · simp_all [lookupStats]

/-- Helper: updateStats bumps exactly the row of the given address. -/
theorem lookupStats_updateStats_self (ts : Int) (db : List (String × AddressStatsRow))
    (a : String) :
    lookupStats (updateStats ts db a) a = (lookupStats db a).map (bumpLastActive ts) := by
  induction db with
  | nil => simp [updateStats, lookupStats]
  | cons p rest ih =>
    obtain ⟨a', r'⟩ := p
    by_cases ha : a' = a
    · simp [updateStats, lookupStats, ha]
    · simp [updateStats, lookupStats, ha, ih]

/-- Helper: updateStats leaves other addresses untouched. -/
theorem lookupStats_updateStats_ne (ts : Int) (db : List (String × AddressStatsRow))
    (a a' : String) (hne : a' ≠ a) :
    lookupStats (updateStats ts db a) a' = lookupStats db a' := by
  induction db with
  | nil => simp [updateStats, lookupStats]
  | cons p rest ih =>
    obtain ⟨b, r'⟩ := p
    by_cases hb : b = a
    · subst hb
      simp [updateStats, lookupStats, Ne.symm hne]
    · by_cases hb' : b = a'
      · simp [updateStats, lookupStats, hb, hb', hne, ih]
      · simp [updateStats, lookupStats, hb, hb', hne, ih]

/-- Helper: updateStats adds no row. -/
theorem lookupStats_updateStats_none (ts : Int) (db : List (String × AddressStatsRow))
    (a b : String) (h : lookupStats db a = none) :
    lookupStats (updateStats ts db b) a = none := by
  by_cases hab : a = b
  · subst hab
    rw [lookupStats_updateStats_self, h]
    rfl
  · rw [lookupStats_updateStats_ne ts db b a hab, h]

/-- Helper: the loop leaves rows of unobserved addresses untouched. -/
theorem statsLoop_db_not_mem (det : String → String) (ts : Int) (a : String) :
    ∀ (addrs : List String) (db maps : List (String × AddressStatsRow)),
      a ∉ addrs →
      lookupStats (statsLoop det ts addrs db maps).1 a = lookupStats db a := by
  intro addrs
  induction addrs with
  | nil => intro db maps _; rfl
  | cons b rest ih =>
    intro db maps hmem
    have hba : a ≠ b := fun h => hmem (h ▸ List.mem_cons_self b rest)
    have hrest : a ∉ rest := fun h => hmem (List.mem_cons_of_mem b h)
    cases hb : lookupStats db b with
    | some rb =>
      simp only [statsLoop, hb]
      rw [ih _ _ hrest, lookupStats_updateStats_ne ts db b a hba]
    | none =>
      simp only [statsLoop, hb]
      rw [ih _ _ hrest]

/-- Helper: the loop bumps the existing row of each observed address. -/
theorem statsLoop_db_mem_some (det : String → String) (ts : Int) (a : String) :
    ∀ (addrs : List String) (db maps : List (String × AddressStatsRow))
      (r : AddressStatsRow),
      a ∈ addrs →
      lookupStats db a = some r →
      lookupStats (statsLoop det ts addrs db maps).1 a = some (bumpLastActive ts r) := by
  intro addrs
  induction addrs with
  | nil => intro db maps r hmem; cases hmem
  | cons b rest ih =>
    intro db maps r hmem hr
    by_cases hba : b = a
    · subst hba
      simp only [statsLoop, hr]
      have hupd : lookupStats (updateStats ts db b) b = some (bumpLastActive ts r) := by
        rw [lookupStats_updateStats_self, hr]; rfl
      by_cases hrest : b ∈ rest
      · rw [ih _ _ _ hrest hupd, bumpLastActive_idem]
      · rw [statsLoop_db_not_mem det ts b rest _ _ hrest, hupd]
    · have hrest : a ∈ rest := by
        cases hmem with
        | head => exact absurd rfl hba
        | tail _ h => exact h
      cases hb : lookupStats db b with
      | some rb =>
        simp only [statsLoop, hb]
        exact ih _ _ _ hrest (by rw [lookupStats_updateStats_ne ts db b a (fun h => hba h.symm), hr])
      | none =>
        simp only [statsLoop, hb]
        exact ih _ _ _ hrest hr

/-- Helper: the loop never adds rows to the queried table. -/
theorem statsLoop_db_none (det : String → String) (ts : Int) (a : String) :
    ∀ (addrs : List String) (db maps : List (String × AddressStatsRow)),
      lookupStats db a = none →
      lookupStats (statsLoop det ts addrs db maps).1 a = none := by
  intro addrs
  induction addrs with
  | nil => intro db maps h; exact h
  | cons b rest ih =>
    intro db maps h
    cases hb : lookupStats db b with
    | some rb =>
      simp only [statsLoop, hb]
      exact ih _ _ (lookupStats_updateStats_none ts db a b h)
    | none =>
      simp only [statsLoop, hb]
      exact ih _ _ h

/-- Helper: staged new rows persist through the rest of the loop. -/
theorem statsLoop_maps_mem (det : String → String) (ts : Int) (a : String)
    (m : AddressStatsRow) :
    ∀ (addrs : List String) (db maps : List (String × AddressStatsRow)),
      lookupStats maps a = some m →
      lookupStats (statsLoop det ts addrs db maps).2 a = some m := by
  intro addrs
  induction addrs with
  | nil => intro db maps h; exact h
  | cons b rest ih =>
    intro db maps h
    cases hb : lookupStats db b with
    | some rb =>
      simp only [statsLoop, hb]
      exact ih _ _ h
    | none =>
      simp only [statsLoop, hb]
      exact ih _ _ (lookupStats_append_left maps _ a m h)

/-- Helper: an observed address absent from the table is staged with
first = last = the block timestamp. -/
theorem statsLoop_maps_new (det : String → String) (ts : Int) (a : String) :
    ∀ (addrs : List String) (db maps : List (String × AddressStatsRow)),
      lookupStats db a = none →
      lookupStats maps a = none →
      a ∈ addrs →
      lookupStats (statsLoop det ts addrs db maps).2 a = some ⟨ts, some ts, det a, 0⟩ := by
  intro addrs
  induction addrs with
  | nil => intro db maps _ _ hmem; cases hmem
  | cons b rest ih =>
    intro db maps hdb hmaps hmem
    by_cases hba : b = a
    · subst hba
      simp only [statsLoop, hdb]
      have hm : lookupStats (maps ++ [(b, ⟨ts, some ts, det b, 0⟩)]) b
          = some ⟨ts, some ts, det b, 0⟩ := by
        rw [lookupStats_append_right maps _ b hmaps]
        simp [lookupStats]
      exact statsLoop_maps_mem det ts b _ rest _ _ hm
    · have hrest : a ∈ rest := by
        cases hmem with
        | head => exact absurd rfl hba
        | tail _ h => exact h
      cases hb : lookupStats db b with
      | some rb =>
        simp only [statsLoop, hb]
        exact ih _ _ (lookupStats_updateStats_none ts db a b hdb) hmaps hrest
      | none =>
        simp only [statsLoop, hb]
        refine ih _ _ hdb ?_ hrest
        rw [lookupStats_append_right maps _ a hmaps]
        simp [lookupStats, hba]

/-- Helper: every staged row either predates the loop or is a fresh row
with first = last = the block timestamp. -/
theorem statsLoop_maps_src (det : String → String) (ts : Int) (a : String)
    (m : AddressStatsRow) :
    ∀ (addrs : List String) (db maps : List (String × AddressStatsRow)),
      lookupStats (statsLoop det ts addrs db maps).2 a = some m →
      lookupStats maps a = some m ∨ m = ⟨ts, some ts, det a, 0⟩ := by
  intro addrs
  induction addrs with
  | nil => intro db maps h; exact Or.inl h
  | cons b rest ih =>
    intro db maps h
    cases hb : lookupStats db b with
    | some rb =>
      simp only [statsLoop, hb] at h
      exact ih _ _ h
    | none =>
      simp only [statsLoop, hb] at h
      rcases ih _ _ h with hmaps | hfresh
      · cases hm : lookupStats maps a with
        | some m0 =>
          rw [lookupStats_append_left maps _ a m0 hm] at hmaps
          cases hmaps
          exact Or.inl rfl
        | none =>
          rw [lookupStats_append_right maps _ a hm] at hmaps
          by_cases hba : b = a
          · subst hba
            simp [lookupStats] at hmaps
            exact Or.inr hmaps.symm
          · simp [lookupStats, hba] at hmaps
      · exact Or.inr hfresh

/-- Claim C10: processing a block with observed addresses addrs at
timestamp ts (1) replaces the row of every already-present observed address
by its bump, leaving unobserved rows untouched; (2) the bump keeps
first_active_time and address_type and moves last_active_time to ts exactly
when ts is strictly greater; (3) a newly observed address is inserted with
first = last = ts; and (4) the invariant first_active_time at most
last_active_time is preserved by every commit. -/
theorem c10_address_stats_monotone (det : String → String) (db : List (String × AddressStatsRow))
    (addrs : List String) (ts : Int) :
    (∀ a r, lookupStats db a = some r →
      lookupStats (processAddressStatsBulk det db addrs ts) a =
        some (if a ∈ addrs then bumpLastActive ts r else r)) ∧
    (∀ r l, r.lastActiveTime = some l →
      (bumpLastActive ts r).firstActiveTime = r.firstActiveTime ∧
      (bumpLastActive ts r).addressType = r.addressType ∧
      (bumpLastActive ts r).lastActiveTime = some (if ts > l then ts else l)) ∧
    (∀ a, lookupStats db a = none → a ∈ addrs →
      lookupStats (processAddressStatsBulk det db addrs ts) a =
        some ⟨ts, some ts, det a, 0⟩) ∧
    (StatsInv db → StatsInv (processAddressStatsBulk det db addrs ts)) := by
  refine ⟨?_, ?_, ?_, ?_⟩
  · intro a r hr
    unfold processAddressStatsBulk
    by_cases hmem : a ∈ addrs
    · rw [if_pos hmem]
      exact lookupStats_append_left _ _ _ _
        (statsLoop_db_mem_some det ts a addrs db [] r hmem hr)
    · rw [if_neg hmem]
      refine lookupStats_append_left _ _ _ _ ?_
      rw [statsLoop_db_not_mem det ts a addrs db [] hmem, hr]
  · intro r l hl
    exact ⟨bumpLastActive_first ts r, bumpLastActive_type ts r,
      bumpLastActive_last ts l r hl⟩
  · intro a hnone hmem
    unfold processAddressStatsBulk
    rw [lookupStats_append_right _ _ _ (statsLoop_db_none det ts a addrs db [] hnone)]
    exact statsLoop_maps_new det ts a addrs db [] hnone rfl hmem
  · intro hinv a r hr
    unfold processAddressStatsBulk at hr
    cases hdb : lookupStats db a with
    | some r0 =>
      by_cases hmem : a ∈ addrs
      · rw [lookupStats_append_left _ _ _ _
          (statsLoop_db_mem_some det ts a addrs db [] r0 hmem hdb)] at hr
        cases hr
        obtain ⟨l0, hl0, hle0⟩ := hinv a r0 hdb
        refine ⟨if ts > l0 then ts else l0, bumpLastActive_last ts l0 r0 hl0, ?_⟩
        rw [bumpLastActive_first]
        split <;> omega
      · rw [lookupStats_append_left _ _ _ _
          (by rw [statsLoop_db_not_mem det ts a addrs db [] hmem, hdb])] at hr
        cases hr
        exact hinv a r hdb
    | none =>
      rw [lookupStats_append_right _ _ _ (statsLoop_db_none det ts a addrs db [] hdb)] at hr
      rcases statsLoop_maps_src det ts a r addrs db [] hr with hm | hfresh
      · simp [lookupStats] at hm
      · subst hfresh
        exact ⟨ts, rfl, le_refl ts⟩

/-- Witness for c10_address_stats_monotone: the existing row of address A is
bumped to last_active_time 100, and the new address B is inserted with
first = last = 100. -/
theorem c10_address_stats_monotone_witness :
    lookupStats statsDbA "A" = some ⟨5, some 7, "p2pk", 0⟩ ∧
    lookupStats (processAddressStatsBulk detP2pk statsDbA ["A", "B"] 100) "A" =
      some (if "A" ∈ ["A", "B"] then bumpLastActive 100 ⟨5, some 7, "p2pk", 0⟩
            else ⟨5, some 7, "p2pk", 0⟩) ∧
    lookupStats statsDbA "B" = none ∧
    lookupStats (processAddressStatsBulk detP2pk statsDbA ["A", "B"] 100) "B" =
      some ⟨100, some 100, detP2pk "B", 0⟩ :=
  ⟨rfl,
   (c10_address_stats_monotone detP2pk statsDbA ["A", "B"] 100).1 "A" _ rfl,
   rfl,
   (c10_address_stats_monotone detP2pk statsDbA ["A", "B"] 100).2.2.1 "B" rfl
     (by decide)⟩
